import Mathlib

/-!
Verification development for the NetworkDashboard repository.

The repository is one script, `app.py`: it enumerates dataset files in a
directory, loads the chosen CSV file into a dataframe, and renders five
tabs (correlation heatmap, scatter plot, bar chart, pie chart, box plot)
with a PNG download button each.  This file gives a shallow embedding of
the script's data model and operations — the dataset registry comprehension,
`load_dataset`, the per-tab label recoding and `value_counts`, the chart
precondition guards, and `save_figure` — and proves theorems settling the
specification's claims about them.
-/

namespace NetworkDashboard

/-- A cell of a loaded table.  The pandas cells `app.py` manipulates are
numbers, strings, or missing values (NaN); the script only ever compares
cells against the integers `0` and `1` and against nothing else, so integer
values, string values and a missing-value marker model them. -/
inductive Value where
  | VInt : Int → Value
  | VStr : String → Value
  | VNA : Value
deriving DecidableEq, Repr

export Value (VInt VStr VNA)

/-- A loaded dataframe (`pd.DataFrame` as used by `app.py`): an ordered
association of column names to columns of cells. -/
structure Dataset where
  cols : List (String × List Value)
deriving DecidableEq, Repr

/-- `len(df)`: the number of rows, read off the first column (`0` for a
frame with no columns). -/
def Dataset.nrows (df : Dataset) : Nat :=
  match df.cols with
  | [] => 0
  | c :: _ => c.2.length

/-- A frame is well formed when every column has the common row count. -/
def Dataset.wellFormed (df : Dataset) : Bool :=
  df.cols.all (fun p => p.2.length == df.nrows)

/-- `df.empty` in pandas: true exactly when the frame has no columns or no
rows. -/
def Dataset.isEmpty (df : Dataset) : Bool :=
  df.cols.isEmpty || df.nrows == 0

/-- `'name' in df.columns`. -/
def Dataset.hasCol (df : Dataset) (name : String) : Bool :=
  df.cols.any (fun p => p.1 == name)

/-- `df[name]`: the first column called `name` (the empty column when the
name is absent; `app.py` always guards the access with a membership test). -/
def Dataset.col (df : Dataset) (name : String) : List Value :=
  ((df.cols.find? (fun p => p.1 == name)).map (fun p => p.2)).getD []

/-- `df[name] = column`: in-place overwrite of an existing column of the
shared frame. -/
def Dataset.setCol (df : Dataset) (name : String) (column : List Value) : Dataset :=
  ⟨df.cols.map (fun p => if p.1 == name then (p.1, column) else p)⟩

/-- `os.path.join(DATA_DIR, file)` for the relative paths `app.py` uses. -/
def pathJoin (dir file : String) : String := dir ++ "/" ++ file

/-- `file.split(".")[0]`: the text of the file name before its first dot
(the whole name when it has no dot, the empty string when it starts with a
dot). -/
def fileKey (file : String) : String :=
  String.mk (file.data.takeWhile (fun c => !(c == '.')))

/-- Python `dict` insertion as performed by a comprehension: an existing
key's value is overwritten, a new key is appended. -/
def dictInsert (m : List (String × String)) (k v : String) : List (String × String) :=
  if m.any (fun p => p.1 == k) then
    m.map (fun p => if p.1 == k then (k, v) else p)
  else
    m ++ [(k, v)]

/-- The dataset registry,
`{file.split(".")[0]: os.path.join(DATA_DIR, file) for file in os.listdir(DATA_DIR)}`,
with the directory listing passed in explicitly. -/
def datasets (dataDir : String) (files : List String) : List (String × String) :=
  files.foldl (fun m file => dictInsert m (fileKey file) (pathJoin dataDir file)) []

/-- Modelled from the spec's words, for comparison with `fileKey`: the
"display name (file name without extension)", i.e. everything before the
last dot, the whole name when there is no dot. -/
def specDisplayName (file : String) : String :=
  if file.data.any (fun c => c == '.') then
    String.mk (((file.data.reverse.dropWhile (fun c => !(c == '.'))).drop 1).reverse)
  else file

/-- The whitespace characters `str.strip()` removes, restricted to those a
delimited text file can carry into a column name. -/
def isWS (c : Char) : Bool := c = ' ' || c = '\t' || c = '\n' || c = '\r'

/-- The left half of `str.strip()`. -/
def lstrip (l : List Char) : List Char := l.dropWhile isWS

/-- The right half of `str.strip()`. -/
def rstrip (l : List Char) : List Char := (l.reverse.dropWhile isWS).reverse

/-- `.str.replace(' ', '_')`. -/
def underscoreSpaces (l : List Char) : List Char :=
  l.map (fun c => if c = ' ' then '_' else c)

/-- `.str.strip().str.replace(' ', '_')` on one column name. -/
def normalizeName (l : List Char) : List Char := underscoreSpaces (lstrip (rstrip l))

/-- The same normalization on `String`, as the loader applies it. -/
def normalizeNameS (s : String) : String := String.mk (normalizeName s.data)

/-- `df.columns = df.columns.str.strip().str.replace(' ', '_')`. -/
def normalizeDataset (df : Dataset) : Dataset :=
  ⟨df.cols.map (fun p => (normalizeNameS p.1, p.2))⟩

/-- `load_dataset(file_path)`.  The outcome of `pd.read_csv` is passed in
as an `Except` value, `.error` standing for any raised exception.  The
result pairs the user-visible `st.error` message, if one was emitted, with
the frame handed downstream: the parsed frame with normalized column names
on success, the empty frame on failure. -/
def load_dataset (filePath : String) (parsed : Except String Dataset) :
    Option String × Dataset :=
  match parsed with
  | .ok df => (none, normalizeDataset df)
  | .error e =>
      (some ("[ERROR] Failed to load dataset: " ++ filePath ++ ", Error: " ++ e), ⟨[]⟩)

/-- One cell under `.replace({1: 'Attack', 0: 'Normal'})`: cells equal to
the integer `1` or `0` are replaced, every other cell is kept. -/
def recode (v : Value) : Value :=
  if v = VInt 1 then VStr "Attack"
  else if v = VInt 0 then VStr "Normal"
  else v

/-- Insertion into a list of keyed counts kept in descending count order. -/
def insertDesc (x : Value × Nat) : List (Value × Nat) → List (Value × Nat)
  | [] => [x]
  | y :: ys => if y.2 ≤ x.2 then x :: y :: ys else y :: insertDesc x ys

/-- Sort keyed counts by descending count (pandas sorts `value_counts`
output this way; it leaves the order of tied counts unspecified, so any
deterministic tie order is a faithful model). -/
def sortDesc : List (Value × Nat) → List (Value × Nat)
  | [] => []
  | x :: xs => insertDesc x (sortDesc xs)

/-- `series.value_counts()`: the occurrence count of every distinct
non-missing value, in descending count order. -/
def value_counts (col : List Value) : List (Value × Nat) :=
  let nonNA := col.filter (fun v => !(v == VNA))
  sortDesc (nonNA.dedup.map (fun v => (v, nonNA.count v)))

/-- The total of the counts in a `value_counts` result. -/
def sumCounts (cs : List (Value × Nat)) : Nat := (cs.map (fun p => p.2)).sum

/-- The count a `value_counts` result assigns to the key `v`
(`0` when `v` is not a key). -/
def countIn : List (Value × Nat) → Value → Nat
  | [], _ => 0
  | p :: t, v => (if p.1 = v then p.2 else 0) + countIn t v

/-- `'%1.1f%%'` applied to `100*c/s`, held exactly in tenths of a percent:
rounding to the nearest tenth, which matches the float formatting whenever
the exact value is not a tie. -/
def pctTenth (c s : Nat) : Nat := (2000 * c + s) / (2 * s)

/-- What one chart tab produces: a rendered artifact (carrying the data the
plot is drawn from), an explicit `st.warning` notice, or — when a guard is
simply falsy — nothing at all. -/
inductive RenderOutcome (α : Type) where
  | rendered : α → RenderOutcome α
  | notice : String → RenderOutcome α
  | skipped : RenderOutcome α
deriving DecidableEq, Repr

/-- Whether an outcome is an explicit notice. -/
def RenderOutcome.isNotice {α : Type} : RenderOutcome α → Bool
  | .notice _ => true
  | _ => false

/-- A pandas column has numeric dtype exactly when no cell is a string
(missing values live inside numeric columns as NaN). -/
def isNumericCol (col : List Value) : Bool :=
  col.all (fun v => match v with | VStr _ => false | _ => true)

/-- `df.select_dtypes(include=['number'])`. -/
def numericFrame (df : Dataset) : Dataset :=
  ⟨df.cols.filter (fun p => isNumericCol p.2)⟩

/-- Tab 1, the correlation heatmap: when the numeric sub-frame is non-empty
it is rendered (the artifact carries the numeric columns the correlation
grid is computed from), otherwise the tab warns. -/
def heatmapRender (df : Dataset) : RenderOutcome Dataset :=
  let numerical := numericFrame df
  if !numerical.isEmpty then RenderOutcome.rendered numerical
  else RenderOutcome.notice "No numerical data available for correlation heatmap."

/-- Tab 2, the scatter plot: both axis selectors offer every column name and
default to the first one; an empty frame, or an empty (hence falsy) default
name, renders nothing. -/
def scatterRender (df : Dataset) : RenderOutcome (String × String) :=
  match df.cols with
  | [] => RenderOutcome.skipped
  | c :: _ =>
      if c.1 == "" then RenderOutcome.skipped
      else RenderOutcome.rendered (c.1, c.1)

/-- Tab 3, the bar chart: when `'Label'` is a column, the script recodes it
in place on the shared frame (`df['Label'] = df['Label'].replace(...)`) and
then counts the categories of the updated column; otherwise it warns.
Returns the frame as the later tabs observe it, together with this tab's own
outcome. -/
def barChartStep (df : Dataset) : Dataset × RenderOutcome (List (Value × Nat)) :=
  if df.hasCol "Label" then
    let df2 := df.setCol "Label" ((df.col "Label").map recode)
    (df2, RenderOutcome.rendered (value_counts (df2.col "Label")))
  else (df, RenderOutcome.notice "'Label' column not found in dataset.")

/-- Tab 4, the pie chart: the same in-place recoding and counting as the bar
chart, rendered as percentage labels (`autopct='%1.1f%%'`), held in tenths
of a percent. -/
def pieChartStep (df : Dataset) : Dataset × RenderOutcome (List (Value × Nat)) :=
  if df.hasCol "Label" then
    let df2 := df.setCol "Label" ((df.col "Label").map recode)
    let counts := value_counts (df2.col "Label")
    (df2, RenderOutcome.rendered
      (counts.map (fun p => (p.1, pctTenth p.2 (sumCounts counts)))))
  else (df, RenderOutcome.notice "'Label' column not found in dataset.")

/-- Tab 5, the box plot: the feature selector offers the numeric column
names and defaults to the first; when there is none (or the default name is
the empty string, which is falsy in Python) the tab silently renders
nothing — there is no warning branch in this tab. -/
def boxPlotRender (df : Dataset) : RenderOutcome (String × List Value) :=
  match (numericFrame df).cols with
  | [] => RenderOutcome.skipped
  | c :: _ =>
      if c.1 == "" then RenderOutcome.skipped
      else RenderOutcome.rendered (c.1, df.col c.1)

/-- The outcomes of the five tabs of one script run, in execution order. -/
structure PageRender where
  heatmap : RenderOutcome Dataset
  scatter : RenderOutcome (String × String)
  bar : RenderOutcome (List (Value × Nat))
  pie : RenderOutcome (List (Value × Nat))
  box : RenderOutcome (String × List Value)
deriving DecidableEq, Repr

/-- The five tabs in script order, threading the shared frame: the bar tab's
in-place recoding is visible to the pie and box tabs. -/
def pageBody (df : Dataset) : PageRender :=
  let h := heatmapRender df
  let sc := scatterRender df
  let stepBar := barChartStep df
  let stepPie := pieChartStep stepBar.1
  let box := boxPlotRender stepPie.1
  ⟨h, sc, stepBar.2, stepPie.2, box⟩

/-- What one script run leaves on the page after the load: either the five
tabs or the `st.error` shown when the loaded frame is empty. -/
inductive PageOutcome where
  | body : PageRender → PageOutcome
  | loadError : String → PageOutcome
deriving DecidableEq, Repr

/-- One run of the script for a chosen dataset path: load, then either
render the five tabs or report the failure (`if not df.empty: ... else:
st.error(...)`). -/
def runPage (filePath : String) (parsed : Except String Dataset) :
    Option String × PageOutcome :=
  let step := load_dataset filePath parsed
  if !step.2.isEmpty then (step.1, PageOutcome.body (pageBody step.2))
  else (step.1, PageOutcome.loadError "Failed to load the dataset or dataset is empty.")

/-- A `BytesIO` buffer as `save_figure` uses it: its contents and its read
position. -/
structure ExportBuffer where
  data : List Nat
  pos : Nat
deriving DecidableEq, Repr

/-- `save_figure(fig)`: allocate a fresh `BytesIO`, let `fig.savefig` render
the figure into it, and seek to position `0`.  The rendering backend is the
external plotting library, passed in as the byte encoding `savefigPNG`.
The figure is returned alongside the buffer to make explicit that the
function never reassigns it. -/
def save_figure {Fig : Type} (savefigPNG : Fig → List Nat) (fig : Fig) :
    ExportBuffer × Fig :=
  (⟨savefigPNG fig, 0⟩, fig)

/-! ### Helper lemmas about recoding -/

theorem recode_recode (v : Value) : recode (recode v) = recode v := by
  by_cases h1 : v = VInt 1
  · subst h1; rfl
  · by_cases h0 : v = VInt 0
    · subst h0; rfl
    · simp [recode, h1, h0]

theorem map_recode_recode (col : List Value) :
    (col.map recode).map recode = col.map recode := by
  induction col with
  | nil => rfl
  | cons v t ih => simp [ih, recode_recode v]

theorem recode_eq_na_iff (v : Value) : recode v = VNA ↔ v = VNA := by
  by_cases h1 : v = VInt 1
  · subst h1; simp [recode]
  · by_cases h0 : v = VInt 0
    · subst h0; simp [recode]
    · simp [recode, h1, h0]

theorem recode_of_untouched (v : Value) (h1 : v ≠ VInt 1) (h0 : v ≠ VInt 0) :
    recode v = v := by
  simp [recode, h1, h0]

/-- Values the recoding neither consumes nor produces keep their exact
preimage: `recode a = v ↔ a = v`. -/
theorem recode_eq_iff (v : Value) (h1 : v ≠ VInt 1) (h0 : v ≠ VInt 0)
    (hA : v ≠ VStr "Attack") (hN : v ≠ VStr "Normal") (a : Value) :
    recode a = v ↔ a = v := by
  constructor
  · intro h
    by_cases a1 : a = VInt 1
    · subst a1; simp [recode] at h; exact absurd h.symm hA
    · by_cases a0 : a = VInt 0
      · subst a0; simp [recode, a1] at h
        exact absurd h.symm hN
      · rwa [recode_of_untouched a a1 a0] at h
  · intro h; rw [h]; exact recode_of_untouched v h1 h0

theorem count_map_recode (v : Value) (h1 : v ≠ VInt 1) (h0 : v ≠ VInt 0)
    (hA : v ≠ VStr "Attack") (hN : v ≠ VStr "Normal") (col : List Value) :
    (col.map recode).count v = col.count v := by
  induction col with
  | nil => rfl
  | cons a t ih =>
      simp only [List.map_cons, List.count_cons, ih, beq_iff_eq,
        recode_eq_iff v h1 h0 hA hN]

/-! ### Helper lemmas about column access and in-place update -/

theorem hasCol_setCol_aux (n n2 : String) (c : List Value) :
    ∀ l : List (String × List Value),
      (l.map (fun p => if p.1 == n then (p.1, c) else p)).any (fun p => p.1 == n2)
        = l.any (fun p => p.1 == n2) := by
  intro l
  induction l with
  | nil => rfl
  | cons p t ih =>
      simp only [List.map_cons, List.any_cons, ih]
      by_cases h : p.1 == n <;> simp [h]

theorem hasCol_setCol (df : Dataset) (n n2 : String) (c : List Value) :
    (df.setCol n c).hasCol n2 = df.hasCol n2 :=
  hasCol_setCol_aux n n2 c df.cols

theorem col_setCol_aux (n : String) (c : List Value) :
    ∀ l : List (String × List Value), l.any (fun p => p.1 == n) = true →
      ((((l.map (fun p => if p.1 == n then (p.1, c) else p)).find?
          (fun p => p.1 == n)).map (fun p => p.2)).getD []) = c := by
  intro l
  induction l with
  | nil => intro h; simp at h
  | cons p t ih =>
      intro h
      by_cases hp : p.1 == n
      · have hp2 : p.1 = n := by simpa using hp
        simp [hp2, hp]
      · have hph : (p.1 == n) = false := by simpa using hp
        have hp2 : ¬(p.1 = n) := by simpa using hp
        simp only [List.any_cons, hph, Bool.false_or] at h
        simp only [List.map_cons, if_neg hp, List.find?]
        rw [hph]
        exact ih h

theorem col_setCol (df : Dataset) (n : String) (c : List Value)
    (h : df.hasCol n = true) : (df.setCol n c).col n = c :=
  col_setCol_aux n c df.cols h

theorem nrows_normalize (df : Dataset) :
    (normalizeDataset df).nrows = df.nrows := by
  rcases df with ⟨cols⟩
  cases cols with
  | nil => rfl
  | cons p t => rfl

theorem isEmpty_normalize (df : Dataset) :
    (normalizeDataset df).isEmpty = df.isEmpty := by
  rcases df with ⟨cols⟩
  cases cols with
  | nil => rfl
  | cons p t => rfl

/-! ### Helper lemmas about `value_counts` -/

theorem insertDesc_perm (x : Value × Nat) (l : List (Value × Nat)) :
    (insertDesc x l).Perm (x :: l) := by
  induction l with
  | nil => exact List.Perm.refl _
  | cons y ys ih =>
      by_cases h : y.2 ≤ x.2
      · simp [insertDesc, h]
      · simp only [insertDesc, if_neg h]
        exact (ih.cons y).trans (List.Perm.swap x y ys)

theorem sortDesc_perm (l : List (Value × Nat)) : (sortDesc l).Perm l := by
  induction l with
  | nil => exact List.Perm.refl _
  | cons x xs ih => exact (insertDesc_perm x (sortDesc xs)).trans (ih.cons x)

theorem countIn_congr_perm {cs cs2 : List (Value × Nat)} (h : cs.Perm cs2)
    (v : Value) : countIn cs v = countIn cs2 v := by
  induction h with
  | nil => rfl
  | cons x _ ih => simp [countIn, ih]
  | swap x y t => simp only [countIn]; omega
  | trans _ _ ih1 ih2 => exact ih1.trans ih2

theorem sumCounts_congr_perm {cs cs2 : List (Value × Nat)} (h : cs.Perm cs2) :
    sumCounts cs = sumCounts cs2 := by
  unfold sumCounts
  exact (h.map (fun p => p.2)).sum_eq

theorem countIn_keyMap (c : Value → Nat) :
    ∀ (keys : List Value) (v : Value), keys.Nodup →
      countIn (keys.map (fun k => (k, c k))) v = if v ∈ keys then c v else 0 := by
  intro keys
  induction keys with
  | nil => intro v _; simp [countIn]
  | cons k t ih =>
      intro v hnd
      rcases List.nodup_cons.mp hnd with ⟨hk, ht⟩
      by_cases hv : k = v
      · subst hv
        simp only [List.map_cons, countIn, if_pos rfl, ih k ht, if_neg hk,
          List.mem_cons, true_or, if_pos]
        omega
      · simp only [List.map_cons, countIn, if_neg hv, ih v ht, Nat.zero_add,
          List.mem_cons]
        have : (v = k ∨ v ∈ t) ↔ v ∈ t := by
          constructor
          · rintro (rfl | hm)
            · exact absurd rfl hv
            · exact hm
          · exact Or.inr
        rw [if_congr this rfl rfl]

/-- The count `value_counts` reports for any value is its number of
occurrences among the non-missing cells of the column. -/
theorem countIn_value_counts (col : List Value) (v : Value) :
    countIn (value_counts col) v = (col.filter (fun u => !(u == VNA))).count v := by
  unfold value_counts
  set nonNA := col.filter (fun u => !(u == VNA)) with hn
  rw [countIn_congr_perm (sortDesc_perm _) v]
  rw [countIn_keyMap (fun u => nonNA.count u) nonNA.dedup v (List.nodup_dedup _)]
  by_cases hv : v ∈ nonNA.dedup
  · rw [if_pos hv]
  · rw [if_neg hv]
    have : v ∉ nonNA := fun hm => hv (List.mem_dedup.mpr hm)
    exact (List.count_eq_zero.mpr this).symm

/-- `value_counts` never reports a count for the missing value. -/
theorem countIn_value_counts_na (col : List Value) :
    countIn (value_counts col) VNA = 0 := by
  rw [countIn_value_counts]
  refine List.count_eq_zero.mpr (fun hm => ?_)
  have := List.of_mem_filter hm
  simp at this

/-- The counts reported by `value_counts` sum to the number of non-missing
cells of the column. -/
theorem sumCounts_value_counts (col : List Value) :
    sumCounts (value_counts col) = (col.filter (fun u => !(u == VNA))).length := by
  unfold value_counts
  set nonNA := col.filter (fun u => !(u == VNA)) with hn
  rw [sumCounts_congr_perm (sortDesc_perm _)]
  unfold sumCounts
  rw [List.map_map]
  have : ((fun p => p.2) ∘ fun v => (v, nonNA.count v)) = fun v => nonNA.count v := rfl
  rw [this]
  exact List.sum_map_count_dedup_eq_length nonNA

/-- Recoding maps non-missing cells to non-missing cells, so it does not
change which rows the counts ignore. -/
theorem filter_na_map_recode (col : List Value) :
    (col.map recode).filter (fun u => !(u == VNA))
      = (col.filter (fun u => !(u == VNA))).map recode := by
  induction col with
  | nil => rfl
  | cons a t ih =>
      by_cases ha : a = VNA
      · subst ha
        simp [ih, recode]
      · have h1 : (recode a == VNA) = false := by
          simp only [beq_eq_false_iff_ne, ne_eq, recode_eq_na_iff]
          exact ha
        have h2 : (a == VNA) = false := by simpa using ha
        simp [h1, h2, ih]

/-! ### Helper lemmas about column-name normalization -/

/-- Whether a character list does not start with whitespace. -/
def headOK (l : List Char) : Bool :=
  match l.head? with
  | none => true
  | some a => !isWS a

theorem headOK_lstrip (l : List Char) : headOK (lstrip l) = true := by
  have h := List.head?_dropWhile_not isWS l
  unfold headOK lstrip
  cases hh : (l.dropWhile isWS).head? with
  | none => rfl
  | some a =>
      rw [hh] at h
      simp [h]

theorem lstrip_of_headOK (l : List Char) (h : headOK l = true) : lstrip l = l := by
  cases l with
  | nil => rfl
  | cons a t =>
      unfold headOK at h
      simp only [List.head?_cons, Bool.not_eq_true'] at h
      simp [lstrip, List.dropWhile_cons, h]

theorem rstrip_headOK_rev (l : List Char) : headOK (rstrip l).reverse = true := by
  unfold rstrip
  rw [List.reverse_reverse]
  exact headOK_lstrip l.reverse

theorem rstrip_of_headOK_rev (l : List Char) (h : headOK l.reverse = true) :
    rstrip l = l := by
  show (lstrip l.reverse).reverse = l
  rw [lstrip_of_headOK l.reverse h, List.reverse_reverse]

theorem headOK_append_singleton (x : List Char) (a : Char)
    (h : headOK (x ++ [a]) = true) (hx : x ≠ []) : headOK x = true := by
  cases x with
  | nil => exact absurd rfl hx
  | cons b t => simpa [headOK] using h

theorem headOK_rev_lstrip (l : List Char) (h : headOK l.reverse = true) :
    headOK (lstrip l).reverse = true := by
  induction l with
  | nil => rfl
  | cons a t ih =>
      by_cases hw : isWS a
      · rcases t with _ | ⟨b, t2⟩
        · simp [lstrip, List.dropWhile_cons, hw, headOK]
        · have hstep : lstrip (a :: b :: t2) = lstrip (b :: t2) := by
            unfold lstrip
            rw [List.dropWhile_cons, if_pos hw]
          rw [hstep]
          refine ih ?_
          refine headOK_append_singleton (b :: t2).reverse a ?_ (by simp)
          simpa using h
      · have hstep : lstrip (a :: t) = a :: t := by
          unfold lstrip
          rw [List.dropWhile_cons, if_neg hw]
        rw [hstep]
        exact h

theorem headOK_underscore (l : List Char) (h : headOK l = true) :
    headOK (underscoreSpaces l) = true := by
  cases l with
  | nil => rfl
  | cons a t =>
      unfold headOK at h
      simp only [List.head?_cons, Bool.not_eq_true'] at h
      by_cases ha : a = ' '
      · subst ha
        exact absurd h (by decide)
      · unfold underscoreSpaces headOK
        simp only [List.map_cons, List.head?_cons, if_neg ha]
        simp [h]

theorem headOK_rev_underscore (l : List Char) (h : headOK l.reverse = true) :
    headOK (underscoreSpaces l).reverse = true := by
  unfold underscoreSpaces
  rw [← List.map_reverse]
  exact headOK_underscore l.reverse h

theorem underscore_char_idem (c : Char) :
    (if (if c = ' ' then '_' else c) = ' ' then '_' else if c = ' ' then '_' else c)
      = (if c = ' ' then '_' else c) := by
  by_cases h : c = ' '
  · subst h; decide
  · simp [h]

theorem underscoreSpaces_idem (l : List Char) :
    underscoreSpaces (underscoreSpaces l) = underscoreSpaces l := by
  induction l with
  | nil => rfl
  | cons a t ih =>
      unfold underscoreSpaces at ih ⊢
      simp only [List.map_cons]
      rw [ih]
      exact congrArg (fun c => c :: List.map _ t) (underscore_char_idem a)

/-- One application of `.str.strip().str.replace(' ', '_')` is a fixed
point of a second one. -/
theorem normalizeName_idem (l : List Char) :
    normalizeName (normalizeName l) = normalizeName l := by
  unfold normalizeName
  have hm1 : headOK (lstrip (rstrip l)) = true := headOK_lstrip (rstrip l)
  have hm2 : headOK (lstrip (rstrip l)).reverse = true :=
    headOK_rev_lstrip (rstrip l) (rstrip_headOK_rev l)
  have hu1 : headOK (underscoreSpaces (lstrip (rstrip l))) = true :=
    headOK_underscore _ hm1
  have hu2 : headOK (underscoreSpaces (lstrip (rstrip l))).reverse = true :=
    headOK_rev_underscore _ hm2
  rw [rstrip_of_headOK_rev _ hu2, lstrip_of_headOK _ hu1, underscoreSpaces_idem]

theorem normalizeNameS_idem (s : String) :
    normalizeNameS (normalizeNameS s) = normalizeNameS s := by
  unfold normalizeNameS
  exact congrArg String.mk (normalizeName_idem s.data)

/-! ### Helper lemmas about the dataset registry -/

theorem dictInsert_mem_key (m : List (String × String)) (k v : String) :
    (dictInsert m k v).any (fun p => p.1 == k) = true := by
  unfold dictInsert
  by_cases h : m.any (fun p => p.1 == k)
  · rw [if_pos h]
    rcases List.any_eq_true.mp h with ⟨p, hp, hpk⟩
    refine List.any_eq_true.mpr ⟨(k, v), ?_, by simp⟩
    refine List.mem_map.mpr ⟨p, hp, ?_⟩
    rw [if_pos hpk]
  · rw [if_neg h]
    refine List.any_eq_true.mpr ⟨(k, v), ?_, by simp⟩
    exact List.mem_append.mpr (Or.inr (by simp))

theorem dictInsert_mem_key_mono (m : List (String × String)) (k v k2 : String)
    (h : m.any (fun p => p.1 == k2) = true) :
    (dictInsert m k v).any (fun p => p.1 == k2) = true := by
  unfold dictInsert
  by_cases hk : m.any (fun p => p.1 == k)
  · rw [if_pos hk]
    rcases List.any_eq_true.mp h with ⟨p, hp, hpk⟩
    refine List.any_eq_true.mpr ⟨if p.1 == k then (k, v) else p, List.mem_map.mpr ⟨p, hp, rfl⟩, ?_⟩
    by_cases hpk2 : p.1 == k
    · have e1 : p.1 = k := by simpa using hpk2
      rw [if_pos hpk2]
      simpa [← e1] using hpk
    · rw [if_neg hpk2]
      exact hpk
  · rw [if_neg hk]
    rcases List.any_eq_true.mp h with ⟨p, hp, hpk⟩
    exact List.any_eq_true.mpr ⟨p, List.mem_append.mpr (Or.inl hp), hpk⟩

theorem dictInsert_provenance (m : List (String × String)) (k v : String)
    (p : String × String) (hp : p ∈ dictInsert m k v) :
    p ∈ m ∨ p = (k, v) := by
  unfold dictInsert at hp
  by_cases hk : m.any (fun q => q.1 == k)
  · rw [if_pos hk] at hp
    rcases List.mem_map.mp hp with ⟨q, hq, hqe⟩
    by_cases hqk : q.1 == k
    · rw [if_pos hqk] at hqe
      exact Or.inr hqe.symm
    · rw [if_neg hqk] at hqe
      exact Or.inl (hqe ▸ hq)
  · rw [if_neg hk] at hp
    rcases List.mem_append.mp hp with h1 | h2
    · exact Or.inl h1
    · exact Or.inr (by simpa using h2)

theorem dictInsert_keys_nodup (m : List (String × String)) (k v : String)
    (h : (m.map (fun p => p.1)).Nodup) :
    ((dictInsert m k v).map (fun p => p.1)).Nodup := by
  unfold dictInsert
  by_cases hk : m.any (fun q => q.1 == k)
  · rw [if_pos hk]
    have : (m.map (fun p => if p.1 == k then (k, v) else p)).map (fun p => p.1)
        = m.map (fun p => p.1) := by
      rw [List.map_map]
      refine List.map_congr_left (fun p _ => ?_)
      by_cases hpk : p.1 == k
      · have hp2 : p.1 = k := by simpa using hpk
        simp [hp2]
      · have hp2 : ¬(p.1 = k) := by simpa using hpk
        simp [hp2]
    rw [this]
    exact h
  · rw [if_neg hk]
    rw [List.map_append]
    have hkn : k ∉ m.map (fun p => p.1) := by
      intro hm
      rcases List.mem_map.mp hm with ⟨p, hp, hpe⟩
      have : m.any (fun q => q.1 == k) = true :=
        List.any_eq_true.mpr ⟨p, hp, by simp [hpe]⟩
      exact hk this
    simp only [List.map_cons, List.map_nil]
    exact List.Nodup.append h (List.nodup_singleton k)
      (List.disjoint_singleton.mpr hkn)

theorem datasets_loop_mem (dir : String) :
    ∀ (files : List String) (m : List (String × String)) (k : String),
      m.any (fun p => p.1 == k) = true →
      (files.foldl (fun m2 file => dictInsert m2 (fileKey file) (pathJoin dir file)) m).any
        (fun p => p.1 == k) = true := by
  intro files
  induction files with
  | nil => intro m k h; exact h
  | cons f t ih =>
      intro m k h
      exact ih _ k (dictInsert_mem_key_mono m (fileKey f) (pathJoin dir f) k h)

theorem datasets_loop_key (dir : String) :
    ∀ (files : List String) (m : List (String × String)) (f : String),
      f ∈ files →
      (files.foldl (fun m2 file => dictInsert m2 (fileKey file) (pathJoin dir file)) m).any
        (fun p => p.1 == fileKey f) = true := by
  intro files
  induction files with
  | nil => intro m f h; simp at h
  | cons g t ih =>
      intro m f h
      rcases List.mem_cons.mp h with h1 | h2
      · subst h1
        exact datasets_loop_mem dir t _ (fileKey f)
          (dictInsert_mem_key m (fileKey f) (pathJoin dir f))
      · exact ih _ f h2

theorem datasets_loop_provenance (dir : String) :
    ∀ (files : List String) (m : List (String × String)) (p : String × String),
      p ∈ files.foldl (fun m2 file => dictInsert m2 (fileKey file) (pathJoin dir file)) m →
      p ∈ m ∨ ∃ g ∈ files, p = (fileKey g, pathJoin dir g) := by
  intro files
  induction files with
  | nil => intro m p h; exact Or.inl h
  | cons g t ih =>
      intro m p h
      rcases ih _ p h with h1 | ⟨g2, hg2, he⟩
      · rcases dictInsert_provenance m (fileKey g) (pathJoin dir g) p h1 with h3 | h4
        · exact Or.inl h3
        · exact Or.inr ⟨g, List.mem_cons_self g t, h4⟩
      · exact Or.inr ⟨g2, List.mem_cons_of_mem g hg2, he⟩

theorem datasets_loop_nodup (dir : String) :
    ∀ (files : List String) (m : List (String × String)),
      (m.map (fun p => p.1)).Nodup →
      ((files.foldl (fun m2 file => dictInsert m2 (fileKey file) (pathJoin dir file)) m).map
        (fun p => p.1)).Nodup := by
  intro files
  induction files with
  | nil => intro m h; exact h
  | cons g t ih =>
      intro m h
      exact ih _ (dictInsert_keys_nodup m (fileKey g) (pathJoin dir g) h)

theorem col_length_wellFormed (df : Dataset) (n : String)
    (hwf : df.wellFormed = true) (h : df.hasCol n = true) :
    (df.col n).length = df.nrows := by
  unfold Dataset.hasCol at h
  rcases List.any_eq_true.mp h with ⟨p, hp, hpk⟩
  unfold Dataset.col
  cases hf : df.cols.find? (fun q => q.1 == n) with
  | none =>
      rw [List.find?_eq_none] at hf
      exact absurd hpk (hf p hp)
  | some q =>
      have hq : q ∈ df.cols := List.mem_of_find?_eq_some hf
      unfold Dataset.wellFormed at hwf
      have hlen := List.all_eq_true.mp hwf q hq
      simpa using hlen

theorem countIn_value_counts_untouched (col : List Value) (v : Value)
    (h1 : v ≠ VInt 1) (h0 : v ≠ VInt 0) (hA : v ≠ VStr "Attack")
    (hN : v ≠ VStr "Normal") (hNA : v ≠ VNA) :
    countIn (value_counts (col.map recode)) v = col.count v := by
  rw [countIn_value_counts]
  rw [List.count_filter (by simp [hNA])]
  exact count_map_recode v h1 h0 hA hN col

/-! ### Claim theorems -/

/-- Claim C3: Label Recoding maps 0 to "Normal" and 1 to "Attack",
injectively onto the two distinct categories, and is stable under repeated
application: recoding an already-recoded cell or column is a no-op. -/
theorem recode_bijection_stable :
    recode (VInt 0) = VStr "Normal" ∧ recode (VInt 1) = VStr "Attack" ∧
    VStr "Normal" ≠ VStr "Attack" ∧
    (∀ v : Value, recode (recode v) = recode v) ∧
    ∀ col : List Value, (col.map recode).map recode = col.map recode :=
  ⟨rfl, rfl, by decide, recode_recode, map_recode_recode⟩

/-- Claim C7: column-name normalization (strip surrounding whitespace,
replace internal spaces with underscores) is idempotent: renormalizing the
already-normalized column names of any frame, or any single name, changes
nothing. -/
theorem normalization_idempotent (df : Dataset) :
    normalizeDataset (normalizeDataset df) = normalizeDataset df ∧
    ∀ s : String, normalizeNameS (normalizeNameS s) = normalizeNameS s := by
  constructor
  · show Dataset.mk _ = Dataset.mk _
    refine congrArg Dataset.mk ?_
    show List.map (fun p => (normalizeNameS p.1, p.2))
      (List.map (fun p => (normalizeNameS p.1, p.2)) df.cols) = _
    rw [List.map_map]
    refine List.map_congr_left (fun p _ => ?_)
    show (normalizeNameS (normalizeNameS p.1), p.2) = (normalizeNameS p.1, p.2)
    rw [normalizeNameS_idem]
  · exact normalizeNameS_idem

/-- The concrete input of claim C8: columns Duration, Protocol, Label with
rows (1,"TCP",0), (2,"TCP",1), (3,"UDP",1). -/
def scenarioDf : Dataset :=
  ⟨[("Duration", [VInt 1, VInt 2, VInt 3]),
    ("Protocol", [VStr "TCP", VStr "TCP", VStr "UDP"]),
    ("Label", [VInt 0, VInt 1, VInt 1])]⟩

/-- Claim C8: on the scenario dataset the bar chart counts Normal once and
Attack twice, and the pie chart labels the wedges 66.7% and 33.3%
(667 and 333 tenths of a percent, as the pie tab runs on the frame the bar
tab already recoded). -/
theorem scenario_bar_pie :
    (barChartStep scenarioDf).2
      = RenderOutcome.rendered [(VStr "Attack", 2), (VStr "Normal", 1)] ∧
    (pieChartStep (barChartStep scenarioDf).1).2
      = RenderOutcome.rendered [(VStr "Attack", 667), (VStr "Normal", 333)] := by
  decide

/-- Claim C9: the export adapter is a pure function of the rendered figure:
it never reassigns the figure, and exporting the same figure again yields
the identical buffer (fresh contents, position 0). -/
theorem export_adapter_pure {Fig : Type} (savefigPNG : Fig → List Nat) (fig : Fig) :
    (save_figure savefigPNG fig).2 = fig ∧
    save_figure savefigPNG ((save_figure savefigPNG fig).2)
      = save_figure savefigPNG fig :=
  ⟨rfl, rfl⟩

/-- Claim C1 counterexample: the bar chart's recoding writes through to the
shared frame, so the table subsequently observed by the pie chart is the
recoded one, not the originally loaded one. -/
theorem bar_recoding_mutates_shared_frame :
    (barChartStep ⟨[("Label", [VInt 0])]⟩).1 = ⟨[("Label", [VStr "Normal"])]⟩ ∧
    (barChartStep ⟨[("Label", [VInt 0])]⟩).1 ≠ ⟨[("Label", [VInt 0])]⟩ := by
  decide

/-- Claim C1 amended: the bar chart's recoding mutates the shared frame in
place, so the pie chart observes the recoded table rather than the original;
but because the recoding is idempotent, the pie chart's outcome on the
mutated frame equals its outcome on the originally loaded frame. -/
theorem pie_outcome_stable_after_bar (df : Dataset)
    (hL : df.hasCol "Label" = true) :
    (pieChartStep (barChartStep df).1).2 = (pieChartStep df).2 := by
  have h1 : (df.setCol "Label" ((df.col "Label").map recode)).hasCol "Label" = true := by
    rw [hasCol_setCol]; exact hL
  have h2 := col_setCol df "Label" ((df.col "Label").map recode) hL
  have h3 := col_setCol (df.setCol "Label" ((df.col "Label").map recode)) "Label"
    ((df.col "Label").map recode) h1
  unfold barChartStep pieChartStep
  simp only [hL, h1, if_true, h2, h3, map_recode_recode]

/-- Claim C1 amended, witness at a concrete frame. -/
theorem pie_outcome_stable_after_bar_witness :
    (pieChartStep (barChartStep ⟨[("Label", [VInt 0, VInt 1])]⟩).1).2
      = (pieChartStep ⟨[("Label", [VInt 0, VInt 1])]⟩).2 :=
  pie_outcome_stable_after_bar ⟨[("Label", [VInt 0, VInt 1])]⟩ (by decide)

/-- Claim C5 counterexample: on a frame with no numeric column the box-plot
tab renders nothing at all — it does not produce a not-applicable notice. -/
theorem box_plot_silent_skip :
    boxPlotRender ⟨[("Protocol", [VStr "TCP"])]⟩ = RenderOutcome.skipped ∧
    (boxPlotRender ⟨[("Protocol", [VStr "TCP"])]⟩).isNotice = false := by
  decide

/-- Claim C5 amended: the heatmap, bar-chart and pie-chart tabs produce
explicit not-applicable notices when their preconditions fail — in
particular the heatmap with no numeric data warns and never faults — but
the box-plot tab with no numeric column silently skips without a notice. -/
theorem precondition_guards_amended (df : Dataset) :
    ((numericFrame df).isEmpty = true →
      heatmapRender df
        = RenderOutcome.notice "No numerical data available for correlation heatmap.") ∧
    (df.hasCol "Label" = false →
      (barChartStep df).2 = RenderOutcome.notice "'Label' column not found in dataset." ∧
      (pieChartStep df).2 = RenderOutcome.notice "'Label' column not found in dataset.") ∧
    ((numericFrame df).cols = [] → boxPlotRender df = RenderOutcome.skipped) := by
  refine ⟨?_, ?_, ?_⟩
  · intro h
    unfold heatmapRender
    simp [h]
  · intro h
    unfold barChartStep pieChartStep
    simp [h]
  · intro h
    unfold boxPlotRender
    rw [h]

/-- Claim C5 amended, witness at a concrete frame with a single
non-numeric column and no Label column. -/
theorem precondition_guards_amended_witness :
    heatmapRender ⟨[("Name", [VStr "x"])]⟩
      = RenderOutcome.notice "No numerical data available for correlation heatmap." ∧
    (barChartStep ⟨[("Name", [VStr "x"])]⟩).2
      = RenderOutcome.notice "'Label' column not found in dataset." ∧
    (pieChartStep ⟨[("Name", [VStr "x"])]⟩).2
      = RenderOutcome.notice "'Label' column not found in dataset." ∧
    boxPlotRender ⟨[("Name", [VStr "x"])]⟩ = RenderOutcome.skipped := by
  have h := precondition_guards_amended ⟨[("Name", [VStr "x"])]⟩
  exact ⟨h.1 (by decide), (h.2.1 (by decide)).1, (h.2.1 (by decide)).2,
    h.2.2 (by decide)⟩

/-- Claim C6: the loader maps any parse failure to a user-visible message
plus the empty frame, maps success to the parsed frame with normalized
column names, and one page run short-circuits to the load-error report when
the resulting frame is empty. -/
theorem loader_failure_policy (filePath e : String) (df : Dataset) :
    load_dataset filePath (Except.error e)
      = (some ("[ERROR] Failed to load dataset: " ++ filePath ++ ", Error: " ++ e),
         ⟨[]⟩) ∧
    load_dataset filePath (Except.ok df) = (none, normalizeDataset df) ∧
    runPage filePath (Except.error e)
      = (some ("[ERROR] Failed to load dataset: " ++ filePath ++ ", Error: " ++ e),
         PageOutcome.loadError "Failed to load the dataset or dataset is empty.") ∧
    (df.isEmpty = true →
      runPage filePath (Except.ok df)
        = (none, PageOutcome.loadError "Failed to load the dataset or dataset is empty.")) := by
  refine ⟨rfl, rfl, rfl, ?_⟩
  intro h
  have h2 : (normalizeDataset df).isEmpty = true := by
    rw [isEmpty_normalize]; exact h
  unfold runPage load_dataset
  simp [h2]

/-- Claim C6, witness: a run on a successfully parsed but empty frame
reaches the load-error report. -/
theorem loader_failure_policy_witness :
    runPage "./data/x.csv" (Except.ok ⟨[]⟩)
      = (none, PageOutcome.loadError "Failed to load the dataset or dataset is empty.") :=
  (loader_failure_policy "./data/x.csv" "boom" ⟨[]⟩).2.2.2 (by decide)

/-- Claim C2 counterexample: with a missing value in the Label column the
bar-chart counts sum to the non-missing cell count (1), not the frame's
total row count (2). -/
theorem counts_sum_counterexample :
    (barChartStep ⟨[("Label", [VInt 0, VNA])]⟩).2
      = RenderOutcome.rendered [(VStr "Normal", 1)] ∧
    Dataset.wellFormed ⟨[("Label", [VInt 0, VNA])]⟩ = true ∧
    Dataset.nrows ⟨[("Label", [VInt 0, VNA])]⟩ = 2 ∧
    sumCounts [(VStr "Normal", 1)] = 1 := by
  decide

/-- Claim C2 amended: for a well-formed frame with a Label column, the bar
and pie tabs both count `value_counts` of the recoded label column; those
counts sum to the number of non-missing label cells, which equals the total
row count exactly when no label cell is missing. -/
theorem counts_sum_amended (df : Dataset)
    (hL : df.hasCol "Label" = true) (hwf : df.wellFormed = true) :
    (barChartStep df).2
      = RenderOutcome.rendered (value_counts ((df.col "Label").map recode)) ∧
    (pieChartStep df).2
      = RenderOutcome.rendered
          ((value_counts ((df.col "Label").map recode)).map
            (fun p => (p.1,
              pctTenth p.2 (sumCounts (value_counts ((df.col "Label").map recode)))))) ∧
    sumCounts (value_counts ((df.col "Label").map recode))
      = ((df.col "Label").filter (fun u => !(u == VNA))).length ∧
    ((df.col "Label").all (fun u => !(u == VNA)) = true →
      sumCounts (value_counts ((df.col "Label").map recode)) = df.nrows) := by
  have h2 := col_setCol df "Label" ((df.col "Label").map recode) hL
  have hsum : sumCounts (value_counts ((df.col "Label").map recode))
      = ((df.col "Label").filter (fun u => !(u == VNA))).length := by
    rw [sumCounts_value_counts, filter_na_map_recode, List.length_map]
  refine ⟨?_, ?_, hsum, ?_⟩
  · unfold barChartStep
    simp only [hL, if_true, h2]
  · unfold pieChartStep
    simp only [hL, if_true, h2]
  · intro hall
    rw [hsum, List.filter_eq_self.mpr (List.all_eq_true.mp hall)]
    exact col_length_wellFormed df "Label" hwf hL

/-- Claim C2 amended, witness at a concrete frame without missing labels. -/
theorem counts_sum_amended_witness :
    sumCounts (value_counts ((Dataset.col ⟨[("Label", [VInt 0, VInt 1])]⟩ "Label").map recode))
      = Dataset.nrows ⟨[("Label", [VInt 0, VInt 1])]⟩ :=
  (counts_sum_amended ⟨[("Label", [VInt 0, VInt 1])]⟩ (by decide) (by decide)).2.2.2
    (by decide)

/-- Claim C4 counterexample: two files whose names share the text before
their first dot collapse into one registry entry, and the key used is the
text before the first dot, not the file name stripped of its extension. -/
theorem registry_counterexample :
    datasets "./data" ["a.b.csv", "a.c.csv"] = [("a", "./data/a.c.csv")] ∧
    specDisplayName "a.b.csv" = "a.b" ∧
    (datasets "./data" ["a.b.csv", "a.c.csv"]).length = 1 ∧
    (datasets "./data" ["a.b.csv", "a.c.csv"]).any
      (fun p => p.1 == specDisplayName "a.b.csv") = false := by
  decide

/-- Claim C4 amended: every listed file contributes an entry keyed by the
text before its first dot; keys are pairwise distinct (files sharing that
text collapse into one entry, the later file winning); and every entry's
value is the directory path joined to one of the listed file names. -/
theorem registry_mapping_amended (dir : String) (files : List String)
    (f : String) (hf : f ∈ files) :
    (datasets dir files).any (fun p => p.1 == fileKey f) = true ∧
    ((datasets dir files).map (fun p => p.1)).Nodup ∧
    ∀ p ∈ datasets dir files, ∃ g ∈ files, p = (fileKey g, pathJoin dir g) := by
  refine ⟨datasets_loop_key dir files [] f hf,
    datasets_loop_nodup dir files [] (by simp), ?_⟩
  intro p hp
  rcases datasets_loop_provenance dir files [] p hp with h1 | h2
  · simp at h1
  · exact h2

/-- Claim C4 amended, witness on a one-file directory listing. -/
theorem registry_mapping_amended_witness :
    (datasets "./data" ["x.csv"]).any (fun p => p.1 == fileKey "x.csv") = true ∧
    ((datasets "./data" ["x.csv"]).map (fun p => p.1)).Nodup ∧
    ∀ p ∈ datasets "./data" ["x.csv"],
      ∃ g ∈ ["x.csv"], p = (fileKey g, pathJoin "./data" g) :=
  registry_mapping_amended "./data" ["x.csv"] "x.csv" (by decide)

/-- Claim C10: only the integer cells 1 and 0 are recoded (to "Attack" and
"Normal" respectively); any other cell — the strings "0"/"1", another
number, a missing value — is left unchanged; an untouched value keeps its
own category with its exact multiplicity in the bar/pie counts; and missing
values are excluded from the counts. -/
theorem recode_partial_interface (col : List Value) (n : Int) (s : String)
    (hn0 : n ≠ 0) (hn1 : n ≠ 1) (hsA : s ≠ "Attack") (hsN : s ≠ "Normal") :
    recode (VInt 1) = VStr "Attack" ∧ recode (VInt 0) = VStr "Normal" ∧
    recode (VInt n) = VInt n ∧ recode (VStr s) = VStr s ∧ recode VNA = VNA ∧
    countIn (value_counts (col.map recode)) (VInt n) = col.count (VInt n) ∧
    countIn (value_counts (col.map recode)) (VStr s) = col.count (VStr s) ∧
    countIn (value_counts (col.map recode)) VNA = 0 := by
  have hn1v : VInt n ≠ VInt 1 := by simp [hn1]
  have hn0v : VInt n ≠ VInt 0 := by simp [hn0]
  have hsv : VStr s ≠ VStr "Attack" := by simp [hsA]
  have hsv2 : VStr s ≠ VStr "Normal" := by simp [hsN]
  refine ⟨rfl, rfl, recode_of_untouched _ hn1v hn0v,
    recode_of_untouched _ (by simp) (by simp), rfl, ?_, ?_, ?_⟩
  · exact countIn_value_counts_untouched col (VInt n) hn1v hn0v
      (by simp) (by simp) (by simp)
  · exact countIn_value_counts_untouched col (VStr s) (by simp) (by simp)
      hsv hsv2 (by simp)
  · exact countIn_value_counts_na (col.map recode)

/-- Claim C10, witness on a column holding another number, the string "1",
a missing value and the two recoded indicator values. -/
theorem recode_partial_interface_witness :
    recode (VInt 1) = VStr "Attack" ∧ recode (VInt 0) = VStr "Normal" ∧
    recode (VInt 5) = VInt 5 ∧ recode (VStr "1") = VStr "1" ∧ recode VNA = VNA ∧
    countIn (value_counts ([VInt 5, VStr "1", VNA, VInt 1, VInt 0].map recode)) (VInt 5)
      = [VInt 5, VStr "1", VNA, VInt 1, VInt 0].count (VInt 5) ∧
    countIn (value_counts ([VInt 5, VStr "1", VNA, VInt 1, VInt 0].map recode)) (VStr "1")
      = [VInt 5, VStr "1", VNA, VInt 1, VInt 0].count (VStr "1") ∧
    countIn (value_counts ([VInt 5, VStr "1", VNA, VInt 1, VInt 0].map recode)) VNA = 0 :=
  recode_partial_interface [VInt 5, VStr "1", VNA, VInt 1, VInt 0] 5 "1"
    (by decide) (by decide) (by decide) (by decide)

end NetworkDashboard
